import Mathlib

/-!
Verification of the Morditux/ratelimiter library against its specification.

The Go sources are shallowly embedded: pure string manipulation is embedded
directly, machine floating point (`float64` token counts and window weights)
is embedded as exact rationals (`ℚ`), `time.Time`/`time.Duration` as integer
nanosecond counts (`ℤ`), and the store is passed to the algorithms as explicit
oracle arguments (the `Get` reply, the `Set` outcome, the `UpdateTTL` outcome)
together with an explicit log of the store operations the code performs.
-/

namespace Ratelimiter

/-! ## Error model

Go errors from `errors.go` / `store/store.go`.  `errors.Is(err, target)`
matches by error kind through wrapping (cause chains), embedded by `GoErr.is`
unwrapping `wrap` layers down to the base sentinel. -/

/-- The error sentinels relevant to the decision layer: `store.ErrKeyTooLong`,
`store.ErrStoreFull`, `ratelimiter.ErrNotSupported`, and a stand-in for any
other error (e.g. an unreachable external store). -/
inductive BaseErr
  | keyTooLong
  | storeFull
  | notSupported
  | generic
deriving DecidableEq, Repr

/-- A Go error value: a base sentinel, possibly wrapped in cause chains. -/
inductive GoErr
  | base (b : BaseErr)
  | wrap (e : GoErr)
deriving DecidableEq, Repr

/-- Embedding of `errors.Is(e, target)`: true when the chain of `e` ends in
the sentinel `target`. -/
def GoErr.is : GoErr → BaseErr → Bool
  | .base b, t => b = t
  | .wrap e, t => e.is t

/-! ## Decision layer outcomes -/

/-- What the middleware / router writes for one request: forward to the
wrapped handler, an error response written by `writeError` with the given
status code, or the `OnLimited` callback. -/
inductive HttpOutcome
  | forward
  | errorResponse (status : Nat)
  | limited
deriving DecidableEq, Repr

/-- The `DefaultOnLimited` (middleware.go lines 298-312) writes
`http.StatusTooManyRequests`. -/
def defaultOnLimitedStatus : Nat := 429

/-- The error-mapping block of `RateLimitMiddleware` (middleware.go lines
395-422): `KeyTooLong` → 431, `StoreFull` → 503, any other error → forward
(fail open), `allowed = false` with no error → `OnLimited`. -/
def middlewareHandleResult (err : Option GoErr) (allowed : Bool) : HttpOutcome :=
  match err with
  | some e =>
    if e.is .keyTooLong then .errorResponse 431
    else if e.is .storeFull then .errorResponse 503
    else .forward
  | none => if !allowed then .limited else .forward

/-- The error-mapping block of `Router.ServeHTTP` (router.go lines 138-165),
embedded separately from its own source text. -/
def routerHandleResult (err : Option GoErr) (allowed : Bool) : HttpOutcome :=
  match err with
  | some e =>
    if e.is .keyTooLong then .errorResponse 431
    else if e.is .storeFull then .errorResponse 503
    else .forward
  | none => if !allowed then .limited else .forward

/-! ## String primitives

Go strings are byte arrays; every string handled here is ASCII, so they are
embedded through the character list `String.data` with structurally
recursive helpers (the Lean core `String` API hides its loops behind
well-founded recursion, which a witness could not evaluate). -/

/-- The `strings.Split` on a one-byte separator (also the comma walk of
`strings.LastIndexByte`, which visits exactly these parts right to left). -/
def splitOnCharL (sep : Char) : List Char → List (List Char)
  | [] => [[]]
  | c :: rest =>
    let r := splitOnCharL sep rest
    if c = sep then [] :: r
    else
      match r with
      | h :: t => (c :: h) :: t
      | [] => [[c]]

/-- Split a string on a separator character, as `strings.Split(s, sep)`. -/
def splitChar (sep : Char) (s : String) : List String :=
  (splitOnCharL sep s.data).map (fun cs => ⟨cs⟩)

/-- The `strings.TrimSpace`: drop whitespace from both ends. -/
def strTrim (s : String) : String :=
  ⟨((s.data.dropWhile Char.isWhitespace).reverse.dropWhile Char.isWhitespace).reverse⟩

/-! ## Path matching (middleware.go `matchPath`, lines 429-453) -/

/-- The `matchPath(path, pattern)`: exact match, or prefix match when the pattern
ends in `*`; a pattern ending in `/*` also matches the bare prefix without
the trailing slash. -/
def matchPath (path pattern : String) : Bool :=
  match pattern.data.getLast? with
  | some '*' =>
    let pref := pattern.data.dropLast
    if path.data.take pref.length = pref then true
    else
      match pref.getLast? with
      | some '/' => path.data = pref.dropLast
      | _ => false
  | some _ => path = pattern
  | none => path = pattern

/-! ## Middleware pipeline (middleware.go `RateLimitMiddleware`)

The request is abstracted by the strings the handler actually consumes:
the cleaned URL path, the method, and the key produced by `options.KeyFunc`.
The limiter is an oracle `Unit → Bool × Option GoErr`; whether it was invoked
is recorded in the outcome. -/

/-- Result of serving one request: the HTTP outcome plus whether the limiter
(and hence the store) was reached. -/
structure ServeOutcome where
  outcome : HttpOutcome
  limiterCalled : Bool
deriving DecidableEq, Repr

/-- The `strings.EqualFold` for the ASCII method names used here: case-insensitive
equality. -/
def eqFold (a b : String) : Bool :=
  a.data.map Char.toLower = b.data.map Char.toLower

/-- The handler built by `RateLimitMiddleware` (middleware.go lines 315-425):
exclusion gate, method gate, key-length gate (431), limiter call, error
mapping.  `maxKeySize` is the raw option; values `≤ 0` reset to 4096 as in
lines 326-328. -/
def middlewareServe (excludePaths includeMethods : List String) (maxKeySize : Int)
    (cleanPath method key : String) (lim : Unit → Bool × Option GoErr) : ServeOutcome :=
  let mks : Int := if maxKeySize ≤ 0 then 4096 else maxKeySize
  if !excludePaths.isEmpty && excludePaths.any (fun p => matchPath cleanPath p) then
    ⟨.forward, false⟩
  else if !includeMethods.isEmpty && !includeMethods.any (fun m => eqFold method m) then
    ⟨.forward, false⟩
  else if (key.utf8ByteSize : Int) > mks then
    ⟨.errorResponse 431, false⟩
  else
    let r := lim ()
    ⟨middlewareHandleResult r.2 r.1, true⟩

/-! ## Router (middleware/router.go) -/

/-- An endpoint rule: path pattern and method list (empty = all methods).
The per-endpoint limiter is carried separately as an oracle indexed by the
rule's position. -/
structure EndpointCfg where
  path : String
  methods : List String
deriving DecidableEq, Repr

/-- The `Router.matchEndpoint` (router.go lines 174-195): path pattern match and,
when a methods list is present, exact method equality. -/
def matchEndpoint (cleanPath method : String) (cfg : EndpointCfg) : Bool :=
  matchPath cleanPath cfg.path &&
    (cfg.methods.isEmpty || cfg.methods.any (fun m => m = method))

/-- The rule-selection loop of `Router.ServeHTTP` (router.go lines 104-105):
first rule in iteration order matching path and method, with its index. -/
def findFirstMatch (cleanPath method : String) :
    List EndpointCfg → Nat → Option (Nat × EndpointCfg)
  | [], _ => none
  | ep :: rest, i =>
    if matchEndpoint cleanPath method ep then some (i, ep)
    else findFirstMatch cleanPath method rest (i + 1)

/-- The `Router.ServeHTTP` (router.go lines 98-171): find the first matching rule,
derive `key = KeyFunc(req) + ":" + rule.Path`, apply the key-length gate,
call that rule's limiter, apply the error mapping; with no matching rule the
request is forwarded. -/
def routerServe (endpoints : List EndpointCfg) (maxKeySize : Int)
    (cleanPath method keyBase : String)
    (lims : Nat → Unit → Bool × Option GoErr) : ServeOutcome :=
  let mks : Int := if maxKeySize ≤ 0 then 4096 else maxKeySize
  match findFirstMatch cleanPath method endpoints 0 with
  | none => ⟨.forward, false⟩
  | some (i, ep) =>
    let key := keyBase ++ ":" ++ ep.path
    if (key.utf8ByteSize : Int) > mks then
      ⟨.errorResponse 431, false⟩
    else
      let r := lims i ()
      ⟨routerHandleResult r.2 r.1, true⟩

/-! ## IP key extraction (middleware.go lines 124-286)

`net.ParseIP`, CIDR membership (`cidr.Contains`) and canonical printing
(`ip.String()`) are passed as parameters `parse`, `trusted`, `canon`: the
extractor logic never inspects the address representation, so any IP model
(and in particular any trusted CIDR set, as a membership predicate) can be
plugged in.  A concrete IPv4 instance is given further down for witnesses. -/

/-- The `stripIPPort` (middleware.go lines 255-286): removes a port from an
address, handling IPv6 brackets; addresses with several colons and no
brackets are returned unchanged. -/
def stripIPPort (addr : String) : String :=
  match addr.data with
  | [] => addr
  | '[' :: rest =>
    if rest.contains ']' then ⟨rest.takeWhile (fun c => c ≠ ']')⟩
    else addr
  | cs =>
    let colons := cs.count ':'
    if colons = 0 then addr
    else if colons = 1 then ⟨cs.takeWhile (fun c => c ≠ ':')⟩
    else addr

/-- The `getRemoteIP` (middleware.go lines 245-251): strip the port from
`RemoteAddr`, parse, and return the canonical form; fall back to the
stripped string when parsing fails. -/
def getRemoteIP {α : Type} (parse : String → Option α) (canon : α → String)
    (remoteAddr : String) : String :=
  let ipStr := stripIPPort remoteAddr
  match parse ipStr with
  | some ip => canon ip
  | none => ipStr

/-- One iteration of the backwards X-Forwarded-For scan (middleware.go lines
195-215): trim the segment, skip it when empty or unparsable, skip it when
trusted, and stop on the first untrusted address.  Note the segment is NOT
port-stripped here. -/
def scanSegment {α : Type} (parse : String → Option α) (trusted : α → Bool)
    (part : String) : Option α :=
  let part := strTrim part
  if part = "" then none
  else
    match parse part with
    | none => none
    | some ip => if trusted ip then none else some ip

/-- The all-trusted fallback, step 3 of `TrustedIPKeyFunc` (middleware.go
lines 219-240): take the left-most segment of the first header, trim it,
strip its port, and return its canonical parse; when it does not parse the
raw (comma branch: port-stripped; no-comma branch: only trimmed) string is
returned, and when it trims to nothing the peer address is returned. -/
def allTrustedFallback {α : Type} (parse : String → Option α) (canon : α → String)
    (remoteIP firstHeader : String) : String :=
  if firstHeader.data.contains ',' then
    let ip := strTrim ((splitChar ',' firstHeader).headD "")
    if ip ≠ "" then
      let cleanIP := stripIPPort ip
      match parse cleanIP with
      | some ipObj => canon ipObj
      | none => cleanIP
    else remoteIP
  else
    let ip := strTrim firstHeader
    if ip ≠ "" then
      let cleanIP := stripIPPort ip
      match parse cleanIP with
      | some ipObj => canon ipObj
      | none => ip
    else remoteIP

/-- The `TrustedIPKeyFunc`'s returned closure (middleware.go lines 148-241).
The double backwards loop (headers last-to-first, and inside one header the
`strings.LastIndexByte` comma walk right-to-left) is embedded as nested
`List.findSome?` over the reversed header list and reversed comma split;
the Go walk visits exactly the comma-separated parts right-to-left (a part
cut off by a comma at byte 0 is the empty string, which both versions
skip). -/
def trustedIPExtract {α : Type} (parse : String → Option α) (trusted : α → Bool)
    (canon : α → String) (remoteAddr : String) (xffHeaders : List String) : String :=
  let remoteIP := getRemoteIP parse canon remoteAddr
  match parse remoteIP with
  | none => remoteIP
  | some ip =>
    if !trusted ip then remoteIP
    else if xffHeaders.isEmpty then remoteIP
    else
      match
        List.findSome?
          (fun xff => List.findSome? (scanSegment parse trusted) ((splitChar ',' xff).reverse))
          xffHeaders.reverse
      with
      | some ipu => canon ipu
      | none => allTrustedFallback parse canon remoteIP (xffHeaders.headD "")

/-- Modelled from the claim's wording (spec §4.4 P7): every chain segment is
trimmed, PORT-STRIPPED, and parsed before the trust test; unparsable segments
are skipped; the extractor returns the right-most element of chain ∪ {peer}
that is not trusted, and the left-most chain segment when every element is
trusted.  Used only to compare the spec text with the code. -/
def claimTrustedExtract {α : Type} (parse : String → Option α) (trusted : α → Bool)
    (canon : α → String) (remoteAddr : String) (xffHeaders : List String) : String :=
  let remoteIP := getRemoteIP parse canon remoteAddr
  let segs := ((xffHeaders.map (fun h => splitChar ',' h)).flatten).map
    (fun s => stripIPPort (strTrim s))
  let cands := (segs ++ [remoteIP]).reverse
  match
    List.findSome?
      (fun s =>
        match parse s with
        | some ip => if trusted ip then none else some ip
        | none => none)
      cands
  with
  | some ip => canon ip
  | none => segs.headD remoteIP

/-! ### A concrete IPv4 model for witnesses and counterexamples

The IPv4 dotted-quad fragment of `net.ParseIP`: four decimal octets `0..255`,
no leading zeros (as in current Go), no other characters.  Canonical printing
of an accepted quad is the quad itself. -/

/-- Parse one decimal octet as `net.ParseIP` does for IPv4. -/
def parseOctet (cs : List Char) : Option Nat :=
  if cs = [] || cs.length > 3 then none
  else if cs.length > 1 && cs.headD ' ' = '0' then none
  else if cs.all Char.isDigit then
    let v := cs.foldl (fun a c => a * 10 + (c.toNat - 48)) 0
    if v ≤ 255 then some v else none
  else none

/-- The IPv4 fragment of `net.ParseIP`. -/
def parseIPv4 (s : String) : Option (Nat × Nat × Nat × Nat) :=
  match splitOnCharL '.' s.data with
  | [a, b, c, d] =>
    match parseOctet a, parseOctet b, parseOctet c, parseOctet d with
    | some x, some y, some z, some w => some (x, y, z, w)
    | _, _, _, _ => none
  | _ => none

/-- The `ip.String()` for a parsed IPv4 quad. -/
def ipv4Canon : Nat × Nat × Nat × Nat → String
  | (a, b, c, d) =>
    toString a ++ "." ++ toString b ++ "." ++ toString c ++ "." ++ toString d

/-- A trusted set containing only the proxy `10.0.0.1` (a `/32` CIDR). -/
def demoTrusted : Nat × Nat × Nat × Nat → Bool :=
  fun ip => ip = (10, 0, 0, 1)

/-- The specificity comparator of the `NewRouter` revision that sorts rules
(src/unnamed/part_004 lines 89-116): exact before wildcard, longer pattern
first, rule with methods first, ties not reordered. -/
def lessSpec (ep1 ep2 : EndpointCfg) : Bool :=
  let isWild1 := ep1.path.data.getLast? = some '*'
  let isWild2 := ep2.path.data.getLast? = some '*'
  if isWild1 ≠ isWild2 then !isWild1
  else if ep1.path.utf8ByteSize ≠ ep2.path.utf8ByteSize then
    ep2.path.utf8ByteSize < ep1.path.utf8ByteSize
  else if ep1.methods.isEmpty ≠ ep2.methods.isEmpty then !ep1.methods.isEmpty
  else false

/-! ## MemoryStore (store/memory.go)

One shard is modelled as an association list from `(namespace, key)` to an
entry; Go map assignment is replace-or-insert.  Times are integer
nanoseconds; the zero `time.Time` (never expires) is `none`. -/

/-- The `store.Entry` (store/store.go): a value and an absolute expiration,
`none` meaning the zero instant (never expires). -/
structure EntryV (α : Type) where
  value : α
  expiresAt : Option Int
deriving DecidableEq, Repr

/-- Contents of one shard: `(namespace, key) → Entry`. -/
abbrev ShardMap (α : Type) := List ((String × String) × EntryV α)

/-- Go map read `shard.entries[k]`. -/
def shardFind {α : Type} (k : String × String) : ShardMap α → Option (EntryV α)
  | [] => none
  | (k', e) :: t => if k' = k then some e else shardFind k t

/-- Replace every binding of `k` (there is at most one). -/
def shardReplace {α : Type} (m : ShardMap α) (k : String × String) (e : EntryV α) :
    ShardMap α :=
  m.map (fun kv => if kv.1 = k then (k, e) else kv)

/-- Go map assignment `shard.entries[k] = entry`: replace when present,
insert when absent. -/
def shardInsert {α : Type} (m : ShardMap α) (k : String × String) (e : EntryV α) :
    ShardMap α :=
  if (shardFind k m).isSome then shardReplace m k e
  else (k, e) :: m

/-- The `Entry.IsExpiredAt` (store/store.go `IsExpired` with `now` made explicit
as in the time-aware variants): the zero instant never expires, otherwise
expired when `now` is strictly after `expiresAt`. -/
def entryIsExpiredAt {α : Type} (e : EntryV α) (now : Int) : Bool :=
  match e.expiresAt with
  | none => false
  | some t => t < now

/-- The per-shard capacity computed by `NewMemoryStoreWithConfig`
(store/memory.go lines 65-83): `maxEntries` defaults to 1,000,000 when
non-positive, then `max 1 (maxEntries / 256)`. -/
def memMaxShardSize (maxEntries : Int) : Int :=
  let m := if maxEntries ≤ 0 then 1000000 else maxEntries
  let mps := m / 256
  if mps < 1 then 1 else mps

/-- The `MemoryStore.SetWithNamespace` (store/memory.go lines 130-162) on one
shard: key-length gate, then insert-or-update when the shard has room,
unconditional update when the key is already present, and `ErrStoreFull`
(shard untouched) for a new key in a full shard. -/
def memSetWithNamespace {α : Type} (maxKeySize maxShardSize : Int) (m : ShardMap α)
    (ns key : String) (v : α) (ttl now : Int) : Option GoErr × ShardMap α :=
  if (ns.utf8ByteSize + key.utf8ByteSize : Int) > maxKeySize then
    (some (.base .keyTooLong), m)
  else
    let entry : EntryV α := ⟨v, if ttl > 0 then some (now + ttl) else none⟩
    let k := (ns, key)
    if (m.length : Int) < maxShardSize then (none, shardInsert m k entry)
    else if (shardFind k m).isSome then (none, shardInsert m k entry)
    else (some (.base .storeFull), m)

/-- The `MemoryStore.GetWithNamespace` (store/memory.go lines 102-122, with the
time-aware `now`): key-length gate, lookup, expired entries reported absent.
The Go signature returns `(interface{}, bool)` — there is no error channel,
and in particular no capacity condition appears anywhere in the read path. -/
def memGetWithNamespace {α : Type} (maxKeySize : Int) (m : ShardMap α)
    (ns key : String) (now : Int) : Option α :=
  if (ns.utf8ByteSize + key.utf8ByteSize : Int) > maxKeySize then none
  else
    match shardFind (ns, key) m with
    | none => none
    | some e => if entryIsExpiredAt e now then none else some e.value

/-! ## Store operations performed by the algorithms -/

/-- The store calls an algorithm can make during one `AllowN`, in program
order. -/
inductive StoreOp
  | get (ns key : String)
  | set (ns key : String) (ttl : Int)
  | ttlRefresh (ns key : String) (ttl : Int)
deriving DecidableEq, Repr

/-! ## Token bucket (algorithms/tokenbucket.go)

`float64` token counts are embedded as `ℚ`; times and durations as integer
nanoseconds.  Store replies are oracle arguments: `stored` for `Get`,
`saveErr` for `Set`, `ttlErr` for `UpdateTTL`. -/

/-- The `ratelimiter.Config` as consumed by the token bucket after
`NewTokenBucket` defaulting (`BurstSize = 0` replaced by `Rate`). -/
structure TBConfig where
  rate : Int
  windowNs : Int
  burstSize : Int
deriving DecidableEq, Repr

/-- The `tokensPerNano = Rate / Window.Nanoseconds()` (tokenbucket.go line 47). -/
def TBConfig.tokensPerNano (c : TBConfig) : ℚ := (c.rate : ℚ) / (c.windowNs : ℚ)

/-- The `tokenBucketState` (tokenbucket.go lines 14-17). -/
structure TBState where
  tokens : ℚ
  lastRefill : Int
deriving DecidableEq, Repr

/-- The refill step of `AllowN` (tokenbucket.go lines 89-97): add
`elapsed · tokensPerNano`, clamp at `BurstSize`, stamp `lastRefill = now`. -/
def tbRefill (c : TBConfig) (s : TBState) (now : Int) : TBState :=
  let tokensToAdd : ℚ := ((now - s.lastRefill : Int) : ℚ) * c.tokensPerNano
  let t := s.tokens + tokensToAdd
  ⟨if t > (c.burstSize : ℚ) then (c.burstSize : ℚ) else t, now⟩

/-- The `getState` (tokenbucket.go lines 148-174): the stored state, or a fresh
state with a full bucket. -/
def tbGetState (c : TBConfig) (stored : Option TBState) (now : Int) : TBState :=
  match stored with
  | some s => s
  | none => ⟨(c.burstSize : ℚ), now⟩

/-- The in-memory state left behind by the `n > 0` path of `AllowN`:
refill, then spend `n` tokens exactly when the refilled count covers them. -/
def tbStep (c : TBConfig) (s : TBState) (now n : Int) : TBState :=
  let s1 := tbRefill c s now
  if (n : ℚ) ≤ s1.tokens then ⟨s1.tokens - (n : ℚ), s1.lastRefill⟩ else s1

/-- Result of one `TokenBucket.AllowN` call. -/
structure TBOut where
  allowed : Bool
  err : Option GoErr
  state : Option TBState
  ops : List StoreOp
deriving DecidableEq, Repr

/-- The `TokenBucket.AllowN` (tokenbucket.go lines 69-116), namespaced-store path
(namespace `"tb"`; the plain-store path only changes the key to
`"tb:" + key`).  `state` is the state visible in the store after the call
(pointer semantics of the in-memory store). -/
def tbAllowN (c : TBConfig) (key : String) (stored : Option TBState) (now n : Int)
    (saveErr ttlErr : Option GoErr) : TBOut :=
  if n ≤ 0 then ⟨true, none, stored, []⟩
  else
    let state := tbGetState c stored now
    let s1 := tbRefill c state now
    if (n : ℚ) ≤ s1.tokens then
      let s2 : TBState := ⟨s1.tokens - (n : ℚ), s1.lastRefill⟩
      match saveErr with
      | some e =>
        ⟨false, some e, some s2, [.get "tb" key, .set "tb" key (2 * c.windowNs)]⟩
      | none =>
        ⟨true, none, some s2, [.get "tb" key, .set "tb" key (2 * c.windowNs)]⟩
    else
      match ttlErr with
      | none =>
        ⟨false, none, some s1, [.get "tb" key, .ttlRefresh "tb" key (2 * c.windowNs)]⟩
      | some _ =>
        ⟨false, none, some s1,
          [.get "tb" key, .ttlRefresh "tb" key (2 * c.windowNs),
            .set "tb" key (2 * c.windowNs)]⟩

/-- Token-bucket states reachable through the public operations, under a
non-decreasing clock (`lastRefill ≤ now` at each step): the fresh state
created by `getState`, and any state `AllowN` leaves behind. -/
inductive TBReach (c : TBConfig) : TBState → Prop
  | init (now : Int) : TBReach c ⟨(c.burstSize : ℚ), now⟩
  | step (s : TBState) (key : String) (now n : Int) (saveErr ttlErr : Option GoErr)
      (h : TBReach c s) (hnow : s.lastRefill ≤ now)
      (s' : TBState)
      (h' : (tbAllowN c key (some s) now n saveErr ttlErr).state = some s') :
      TBReach c s'

/-! ## Token bucket with details (the `AllowNWithDetails` revision,
src/unnamed/part_002)

That revision's state adds `LastSave` (`none` = zero instant) and its result
carries limit/remaining/reset/retry-after.  `time.Duration(x)` truncation of
the float retry-after to whole nanoseconds is left exact in `ℚ`; `int(x)` on
the (non-negative) remaining tokens is `⌊x⌋`. -/

/-- The `tokenBucketState` of the details revision: tokens, last refill, and the
last persisted instant. -/
structure TBDState where
  tokens : ℚ
  lastRefill : Int
  lastSave : Option Int
deriving DecidableEq, Repr

/-- The `ratelimiter.Result` for the token bucket. -/
structure TBResult where
  allowed : Bool
  limit : Int
  remaining : Int
  resetAt : Int
  retryAfter : ℚ
deriving DecidableEq, Repr

/-- Result of one `TokenBucket.AllowNWithDetails` call. -/
structure TBDOut where
  result : TBResult
  err : Option GoErr
  state : Option TBDState
  ops : List StoreOp
deriving DecidableEq, Repr

/-- The `getState` of the details revision: stored state or a fresh full bucket
with `LastSave` zero. -/
def tbdGetState (c : TBConfig) (stored : Option TBDState) (now : Int) : TBDState :=
  match stored with
  | some s => s
  | none => ⟨(c.burstSize : ℚ), now, none⟩

/-- The `TokenBucket.AllowNWithDetails` (src/unnamed/part_002 lines 91-169):
refill, allow iff the refilled tokens cover `n` (then spend exactly `n`),
otherwise deny with `retryAfter = (n − tokens) / tokensPerNano`; on the allow
path the save may be skipped for pointer stores whose `LastSave` is within
one window. -/
def tbAllowNDetails (c : TBConfig) (isPointerStore : Bool) (key : String)
    (stored : Option TBDState) (now n : Int) (saveErr ttlErr : Option GoErr) : TBDOut :=
  if n ≤ 0 then
    ⟨⟨true, c.rate, c.burstSize, 0, 0⟩, none, stored, []⟩
  else
    let state := tbdGetState c stored now
    let tokensToAdd : ℚ := ((now - state.lastRefill : Int) : ℚ) * c.tokensPerNano
    let t := state.tokens + tokensToAdd
    let t := if t > (c.burstSize : ℚ) then (c.burstSize : ℚ) else t
    if (n : ℚ) ≤ t then
      let t2 := t - (n : ℚ)
      let shouldSave : Bool :=
        match isPointerStore, state.lastSave with
        | true, some ls => decide (c.windowNs ≤ now - ls)
        | _, _ => true
      if shouldSave then
        let s2 : TBDState := ⟨t2, now, some now⟩
        match saveErr with
        | some e =>
          ⟨⟨false, 0, 0, 0, 0⟩, some e, some s2,
            [.get "tb" key, .set "tb" key (2 * c.windowNs)]⟩
        | none =>
          ⟨⟨true, c.rate, ⌊t2⌋, now + c.windowNs, 0⟩, none, some s2,
            [.get "tb" key, .set "tb" key (2 * c.windowNs)]⟩
      else
        ⟨⟨true, c.rate, ⌊t2⌋, now + c.windowNs, 0⟩, none,
          some ⟨t2, now, state.lastSave⟩, [.get "tb" key]⟩
    else
      let tokensNeeded := (n : ℚ) - t
      let retryAfter : ℚ := if 0 < tokensNeeded then tokensNeeded / c.tokensPerNano else 0
      let result : TBResult := ⟨false, c.rate, ⌊t⌋, now + c.windowNs, retryAfter⟩
      let s1 : TBDState := ⟨t, now, state.lastSave⟩
      match ttlErr with
      | none =>
        ⟨result, none, some s1, [.get "tb" key, .ttlRefresh "tb" key (2 * c.windowNs)]⟩
      | some _ =>
        ⟨result, none, some s1,
          [.get "tb" key, .ttlRefresh "tb" key (2 * c.windowNs),
            .set "tb" key (2 * c.windowNs)]⟩

/-! ## Sliding window (algorithms/slidingwindow.go)

`float64` weights are embedded as `ℚ`; `invWindow = 1 / windowNs` is exact
here where the Go code rounds once at construction. -/

/-- Sliding-window configuration. -/
structure SWConfig where
  rate : Int
  windowNs : Int
deriving DecidableEq, Repr

/-- The `invWindow` (slidingwindow.go line 42). -/
def SWConfig.invWindow (c : SWConfig) : ℚ := 1 / (c.windowNs : ℚ)

/-- The `slidingWindowState` (slidingwindow.go lines 13-17). -/
structure SWState where
  prevCount : Int
  currCount : Int
  windowStart : Int
deriving DecidableEq, Repr

/-- The `advanceWindow` (slidingwindow.go lines 253-266): full reset after two
windows, slide after one, otherwise unchanged. -/
def advanceWindow (c : SWConfig) (s : SWState) (now : Int) : SWState :=
  if now - s.windowStart ≥ 2 * c.windowNs then ⟨0, 0, now⟩
  else if now - s.windowStart ≥ c.windowNs then ⟨s.currCount, 0, s.windowStart + c.windowNs⟩
  else s

/-- The `getState` (slidingwindow.go lines 210-249): advance the stored state, or
start a fresh window at `now`. -/
def swGetState (c : SWConfig) (stored : Option SWState) (now : Int) : SWState :=
  match stored with
  | some s => advanceWindow c s now
  | none => ⟨0, 0, now⟩

/-- The weighted count of `AllowNWithDetails` (slidingwindow.go lines
95-103): the window progress `(now − windowStart) · invWindow` clamped above
at 1, the previous window discounted by `1 − progress`, plus the current
count. -/
def swWeighted (c : SWConfig) (st : SWState) (now : Int) : ℚ :=
  let wp : ℚ := ((now - st.windowStart : Int) : ℚ) * c.invWindow
  let wp := if wp > 1 then 1 else wp
  (st.prevCount : ℚ) * (1 - wp) + (st.currCount : ℚ)

/-- The `ratelimiter.Result` for the sliding window; `retryAfter` is a whole
number of nanoseconds here. -/
structure SWResult where
  allowed : Bool
  limit : Int
  remaining : Int
  resetAt : Int
  retryAfter : Int
deriving DecidableEq, Repr

/-- Result of one `SlidingWindow.AllowNWithDetails` call. -/
structure SWOut where
  result : SWResult
  err : Option GoErr
  state : Option SWState
  ops : List StoreOp
deriving DecidableEq, Repr

/-- The `SlidingWindow.AllowNWithDetails` (slidingwindow.go lines 72-140),
namespaced-store path (namespace `"sw"`): advance the window, compute the
weighted count with the previous window discounted by the window progress
(clamped above at 1), deny when `weighted + n` exceeds the rate (TTL refresh,
falling back to a full write), otherwise add `n` to the current count and
persist; a failed persist on the allow path returns the zero result and the
error. -/
def swAllowNDetails (c : SWConfig) (key : String) (stored : Option SWState)
    (now n : Int) (saveErr ttlErr : Option GoErr) : SWOut :=
  if n ≤ 0 then
    ⟨⟨true, c.rate, c.rate, 0, 0⟩, none, stored, []⟩
  else
    let state := swGetState c stored now
    let resetAt := state.windowStart + c.windowNs
    let weighted : ℚ := swWeighted c state now
    if (c.rate : ℚ) < weighted + (n : ℚ) then
      let retryAfter := c.windowNs - (now - state.windowStart)
      let rem : ℚ := (c.rate : ℚ) - weighted
      let rem := if rem < 0 then 0 else rem
      let result : SWResult := ⟨false, c.rate, ⌊rem⌋, resetAt, retryAfter⟩
      match ttlErr with
      | none =>
        ⟨result, none, some state, [.get "sw" key, .ttlRefresh "sw" key (3 * c.windowNs)]⟩
      | some _ =>
        ⟨result, none, some state,
          [.get "sw" key, .ttlRefresh "sw" key (3 * c.windowNs),
            .set "sw" key (3 * c.windowNs)]⟩
    else
      let s2 : SWState := ⟨state.prevCount, state.currCount + n, state.windowStart⟩
      let rem : ℚ := (c.rate : ℚ) - (weighted + (n : ℚ))
      let rem := if rem < 0 then 0 else rem
      let result : SWResult := ⟨true, c.rate, ⌊rem⌋, resetAt, 0⟩
      match saveErr with
      | some e =>
        ⟨⟨false, 0, 0, 0, 0⟩, some e, some s2,
          [.get "sw" key, .set "sw" key (3 * c.windowNs)]⟩
      | none =>
        ⟨result, none, some s2, [.get "sw" key, .set "sw" key (3 * c.windowNs)]⟩

/-! ## Claims -/

/-- Claim C10: for every key and every `n ≤ 0`, `TokenBucket.AllowN` and
`SlidingWindow.AllowNWithDetails` return an allow verdict with no error, the
stored state is untouched, and no store operation at all is performed (the
result does not depend on any store reply, and the operation log is empty). -/
theorem c10_nonpositive_n_trivially_allowed (c : TBConfig) (cs : SWConfig)
    (key key' : String) (tstored : Option TBState) (wstored : Option SWState)
    (now now' n : Int) (se te se' te' : Option GoErr)
    (hn : n ≤ 0) :
    tbAllowN c key tstored now n se te = ⟨true, none, tstored, []⟩
    ∧ swAllowNDetails cs key' wstored now' n se' te' =
        ⟨⟨true, cs.rate, cs.rate, 0, 0⟩, none, wstored, []⟩ := by
  constructor <;> simp [tbAllowN, swAllowNDetails, hn]

/-- Witness for C10 at `n = 0`. -/
theorem c10_witness :
    tbAllowN ⟨10, 100, 10⟩ "k" none 5 0 none none = ⟨true, none, none, []⟩
    ∧ swAllowNDetails ⟨10, 100⟩ "k" none 5 0 none none =
        ⟨⟨true, 10, 10, 0, 0⟩, none, none, []⟩ :=
  c10_nonpositive_n_trivially_allowed ⟨10, 100, 10⟩ ⟨10, 100⟩ "k" "k" none none
    5 5 0 none none none none (by decide)

/-- Claim C1: when the allow-path persistence write fails (in particular with
`StoreFull`), both `TokenBucket.AllowN` and `SlidingWindow.AllowNWithDetails`
return a deny verdict together with that error — the error is surfaced, and
the call never reports `allowed = true`. -/
theorem c1_allow_path_store_error_denies (c : TBConfig) (cs : SWConfig)
    (key key' : String) (tstored : Option TBState) (wstored : Option SWState)
    (now now' n n' : Int) (e e' : GoErr) (ttlErr ttlErr' : Option GoErr)
    (hn : 0 < n) (hn' : 0 < n')
    (htb : (n : ℚ) ≤ (tbRefill c (tbGetState c tstored now) now).tokens)
    (hsw : ¬ ((cs.rate : ℚ) <
        swWeighted cs (swGetState cs wstored now') now' + (n' : ℚ))) :
    ((tbAllowN c key tstored now n (some e) ttlErr).allowed = false
      ∧ (tbAllowN c key tstored now n (some e) ttlErr).err = some e)
    ∧ ((swAllowNDetails cs key' wstored now' n' (some e') ttlErr').result.allowed = false
      ∧ (swAllowNDetails cs key' wstored now' n' (some e') ttlErr').err = some e') := by
  have h1 : ¬ (n ≤ 0) := by omega
  have h2 : ¬ (n' ≤ 0) := by omega
  constructor
  · simp only [tbAllowN, if_neg h1, if_pos htb]
    exact ⟨trivial, trivial⟩
  · simp only [swAllowNDetails, if_neg h2, if_neg hsw]
    exact ⟨trivial, trivial⟩

/-- Witness for C1: a fresh key with a full bucket / empty window, `n = 1`,
and a `StoreFull` reply from the persistence write. -/
theorem c1_witness :
    (0 : Int) < 1
    ∧ ((tbAllowN ⟨10, 100, 10⟩ "k" none 5 1 (some (.base .storeFull)) none).allowed = false
      ∧ (tbAllowN ⟨10, 100, 10⟩ "k" none 5 1 (some (.base .storeFull)) none).err =
          some (.base .storeFull))
    ∧ ((swAllowNDetails ⟨10, 100⟩ "k" none 5 1 (some (.base .storeFull)) none).result.allowed
          = false
      ∧ (swAllowNDetails ⟨10, 100⟩ "k" none 5 1 (some (.base .storeFull)) none).err =
          some (.base .storeFull)) := by
  have h := c1_allow_path_store_error_denies ⟨10, 100, 10⟩ ⟨10, 100⟩ "k" "k" none none
    5 5 1 1 (.base .storeFull) (.base .storeFull) none none
    (by decide) (by decide)
    (by norm_num [tbRefill, tbGetState, TBConfig.tokensPerNano])
    (by norm_num [swWeighted, swGetState, SWConfig.invWindow])
  exact ⟨by decide, h.1, h.2⟩

/-- Claim C2: the single-limiter middleware and the per-endpoint router apply
the identical error mapping; a `KeyTooLong` error (matched by kind, so
through wrapping) yields 431, `StoreFull` yields 503, any other limiter
error forwards the request (fail open), and `allowed = false` without an
error invokes the limited handler, whose default writes 429. -/
theorem c2_error_mapping_identical :
    (∀ (err : Option GoErr) (allowed : Bool),
        middlewareHandleResult err allowed = routerHandleResult err allowed)
    ∧ (∀ (e : GoErr) (a : Bool),
        middlewareHandleResult (some e) a =
          (if e.is .keyTooLong then .errorResponse 431
           else if e.is .storeFull then .errorResponse 503
           else .forward))
    ∧ (∀ (e : GoErr) (a : Bool),
        middlewareHandleResult (some (GoErr.wrap e)) a =
          middlewareHandleResult (some e) a)
    ∧ (∀ a, middlewareHandleResult none a = (if a then .forward else .limited))
    ∧ defaultOnLimitedStatus = 429 := by
  refine ⟨?_, ?_, ?_, ?_, rfl⟩
  · intro err a
    cases err <;> rfl
  · intro e a
    rfl
  · intro e a
    rfl
  · intro a
    cases a <;> rfl

/-- Claim C5, failing input: `Router.ServeHTTP` iterates the rules in
declaration order (`NewRouter` in middleware/router.go performs no
specificity sort), so with the rules declared as `/*` then `/critical`, a
`GET /critical` request selects the broad `/*` rule at index 0 even though
the `/critical` rule also matches and is strictly more specific under the
specificity comparator of the sorting revision. -/
theorem c5_router_declaration_order_shadowing :
    findFirstMatch "/critical" "GET" [⟨"/*", []⟩, ⟨"/critical", []⟩] 0 =
        some (0, ⟨"/*", []⟩)
    ∧ matchEndpoint "/critical" "GET" ⟨"/critical", []⟩ = true
    ∧ lessSpec ⟨"/critical", []⟩ ⟨"/*", []⟩ = true := by
  decide

/-- The claim's refill formula:
`min(burst_size, tokens + elapsed · tokens_per_nanosecond)`. -/
def tbdRefilledTokens (c : TBConfig) (s : TBDState) (now : Int) : ℚ :=
  min (c.burstSize : ℚ) (s.tokens + ((now - s.lastRefill : Int) : ℚ) * c.tokensPerNano)

/-- The code's clamp (`if t > burst { t = burst }`) is the claim's `min`. -/
theorem clamp_eq_min (b t : ℚ) : (if t > b then b else t) = min b t := by
  rcases le_or_lt t b with h | h
  · rw [if_neg (not_lt.mpr h), min_eq_right h]
  · rw [if_pos h, min_eq_left h.le]

/-- Claim C7: for every token-bucket `AllowN(key, n)` with `n > 0` (persistence
succeeding), after the refill step the verdict is allow exactly when the
refilled tokens cover `n`, in which case the stored tokens decrease by exactly
`n`; otherwise the verdict is deny, the token count is not decremented, and
`retry_after = (n − tokens) / tokens_per_nanosecond` is returned. -/
theorem c7_token_bucket_verdict (c : TBConfig) (isPtr : Bool) (key : String)
    (stored : Option TBDState) (now n : Int) (ttlErr : Option GoErr)
    (hn : 0 < n) :
    ((tbAllowNDetails c isPtr key stored now n none ttlErr).result.allowed = true
      ↔ (n : ℚ) ≤ tbdRefilledTokens c (tbdGetState c stored now) now)
    ∧ ((tbAllowNDetails c isPtr key stored now n none ttlErr).result.allowed = true →
        (tbAllowNDetails c isPtr key stored now n none ttlErr).state.map (fun s => s.tokens) =
          some (tbdRefilledTokens c (tbdGetState c stored now) now - (n : ℚ)))
    ∧ ((tbAllowNDetails c isPtr key stored now n none ttlErr).result.allowed = false →
        (tbAllowNDetails c isPtr key stored now n none ttlErr).state.map (fun s => s.tokens) =
          some (tbdRefilledTokens c (tbdGetState c stored now) now)
        ∧ (tbAllowNDetails c isPtr key stored now n none ttlErr).result.retryAfter =
            ((n : ℚ) - tbdRefilledTokens c (tbdGetState c stored now) now) / c.tokensPerNano) := by
  have hn' : ¬ (n ≤ 0) := by omega
  simp only [tbAllowNDetails, tbdRefilledTokens, if_neg hn', clamp_eq_min]
  set s0 := tbdGetState c stored now with hs0
  set t1 : ℚ := min (c.burstSize : ℚ) (s0.tokens + ((now - s0.lastRefill : Int) : ℚ) * c.tokensPerNano)
    with ht1
  by_cases hc : (n : ℚ) ≤ t1
  · rw [if_pos hc]
    constructor
    · constructor
      · intro _; exact hc
      · intro _
        split <;> rfl
    constructor
    · intro _
      split <;> rfl
    · intro h
      exfalso
      revert h
      split <;> simp
  · rw [if_neg hc]
    have hpos : 0 < (n : ℚ) - t1 := by
      have := lt_of_not_le hc
      linarith
    constructor
    · constructor
      · intro h
        cases ttlErr <;> simp at h
      · intro h; exact absurd h hc
    constructor
    · intro h
      cases ttlErr <;> simp at h
    · intro _
      rw [if_pos hpos]
      cases ttlErr <;> exact ⟨rfl, rfl⟩

/-- Witness for C7: fresh key, full bucket of 10, `n = 1`, allows and spends
one token; and a deny at `n = 20` returns the retry-after quotient. -/
theorem c7_witness :
    ((tbAllowNDetails ⟨10, 100, 10⟩ false "k" none 5 1 none none).result.allowed = true
      ↔ ((1 : Int) : ℚ) ≤ tbdRefilledTokens ⟨10, 100, 10⟩ (tbdGetState ⟨10, 100, 10⟩ none 5) 5)
    ∧ (((tbAllowNDetails ⟨10, 100, 10⟩ false "k" none 5 1 none none).result.allowed = true →
        (tbAllowNDetails ⟨10, 100, 10⟩ false "k" none 5 1 none none).state.map
            (fun s => s.tokens) =
          some (tbdRefilledTokens ⟨10, 100, 10⟩ (tbdGetState ⟨10, 100, 10⟩ none 5) 5
            - ((1 : Int) : ℚ)))) := by
  have h := c7_token_bucket_verdict ⟨10, 100, 10⟩ false "k" none 5 1 none (by decide)
  exact ⟨h.1, h.2.1⟩

/-- The store-visible state written by the `n > 0` path of `AllowN` is
`tbStep` of the stored state (refill, then spend on the allow path); for
`n ≤ 0` the stored state is untouched. -/
theorem tbAllowN_state_eq (c : TBConfig) (key : String) (s : TBState) (now n : Int)
    (se te : Option GoErr) :
    (tbAllowN c key (some s) now n se te).state =
      some (if n ≤ 0 then s else tbStep c s now n) := by
  by_cases hn : n ≤ 0
  · simp [tbAllowN, hn]
  · simp only [tbAllowN, tbStep, tbGetState, if_neg hn]
    cases se <;> cases te <;> split <;> rfl

/-- Claim C9: for every token-bucket state reachable through the public
operations under a non-decreasing clock, `0 ≤ tokens ≤ burst_size` holds, and
it still holds right after any further refill step: the refill clamps tokens
at `burst_size`, and tokens never go negative because exactly `n` tokens are
spent only when the refilled count covers them. -/
theorem c9_tokens_invariant (c : TBConfig) (s : TBState)
    (hb : 0 ≤ c.burstSize) (hr : 0 ≤ c.rate) (hw : 0 < c.windowNs)
    (h : TBReach c s) :
    (0 ≤ s.tokens ∧ s.tokens ≤ (c.burstSize : ℚ))
    ∧ ∀ now : Int, s.lastRefill ≤ now →
        0 ≤ (tbRefill c s now).tokens ∧ (tbRefill c s now).tokens ≤ (c.burstSize : ℚ) := by
  have htpn : 0 ≤ c.tokensPerNano := by
    unfold TBConfig.tokensPerNano
    apply div_nonneg
    · exact_mod_cast hr
    · exact_mod_cast hw.le
  have hbq : (0 : ℚ) ≤ (c.burstSize : ℚ) := by exact_mod_cast hb
  have refill_bounds : ∀ (s' : TBState) (now : Int), 0 ≤ s'.tokens → s'.lastRefill ≤ now →
      0 ≤ (tbRefill c s' now).tokens ∧ (tbRefill c s' now).tokens ≤ (c.burstSize : ℚ) := by
    intro s' now ht hnow
    have hadd : 0 ≤ ((now - s'.lastRefill : Int) : ℚ) * c.tokensPerNano := by
      apply mul_nonneg _ htpn
      have : (0 : Int) ≤ now - s'.lastRefill := by omega
      exact_mod_cast this
    simp only [tbRefill, clamp_eq_min]
    constructor
    · exact le_min hbq (by linarith)
    · exact min_le_left _ _
  induction h with
  | init now =>
    refine ⟨⟨hbq, le_refl _⟩, ?_⟩
    intro now' hnow'
    exact refill_bounds _ now' hbq hnow'
  | step s key now n se te hreach hnow s' hstate ih =>
    rw [tbAllowN_state_eq] at hstate
    have hs' : s' = if n ≤ 0 then s else tbStep c s now n := by
      exact Option.some.inj hstate.symm
    by_cases hn : n ≤ 0
    · rw [hs', if_pos hn]
      exact ih
    · rw [hs', if_neg hn]
      have hr1 := refill_bounds s now ih.1.1 hnow
      have hnq : (1 : ℚ) ≤ (n : ℚ) := by exact_mod_cast (by omega : (1 : Int) ≤ n)
      unfold tbStep
      by_cases hc : (n : ℚ) ≤ (tbRefill c s now).tokens
      · rw [if_pos hc]
        have hbounds : 0 ≤ (tbRefill c s now).tokens - (n : ℚ)
            ∧ (tbRefill c s now).tokens - (n : ℚ) ≤ (c.burstSize : ℚ) := by
          constructor
          · linarith
          · linarith [hr1.2]
        refine ⟨hbounds, ?_⟩
        intro now' hnow'
        exact refill_bounds _ now' hbounds.1 hnow'
      · rw [if_neg hc]
        refine ⟨hr1, ?_⟩
        intro now' hnow'
        have : (tbRefill c s now).lastRefill = now := rfl
        exact refill_bounds _ now' hr1.1 hnow'

/-- Witness for C9 at the initial state of a 10-token bucket. -/
theorem c9_witness :
    (0 ≤ (TBState.mk ((10 : Int) : ℚ) 0).tokens
      ∧ (TBState.mk ((10 : Int) : ℚ) 0).tokens ≤ (((10 : Int) : Int) : ℚ))
    ∧ ∀ now : Int, (TBState.mk ((10 : Int) : ℚ) 0).lastRefill ≤ now →
        0 ≤ (tbRefill ⟨10, 100, 10⟩ (TBState.mk ((10 : Int) : ℚ) 0) now).tokens
        ∧ (tbRefill ⟨10, 100, 10⟩ (TBState.mk ((10 : Int) : ℚ) 0) now).tokens
            ≤ (((10 : Int) : Int) : ℚ) :=
  c9_tokens_invariant ⟨10, 100, 10⟩ ⟨((10 : Int) : ℚ), 0⟩
    (by decide) (by decide) (by decide) (TBReach.init 0)

/-- For a non-negative argument the claim's two-sided clamp agrees with the
code's one-sided clamp at 1. -/
theorem clamp01_of_nonneg (q : ℚ) (hq : 0 ≤ q) :
    max 0 (min 1 q) = (if q > 1 then 1 else q) := by
  rcases le_or_lt q 1 with h | h
  · rw [if_neg (not_lt.mpr h), min_eq_right h, max_eq_right hq]
  · rw [if_pos h, min_eq_left h.le]
    exact max_eq_right (by norm_num)

/-- When the window start is not in the future, the code's weighted count is
the claim's `prev · (1 − clamp((now − window_start)/window, 0, 1)) + curr`. -/
theorem swWeighted_eq_clamped (c : SWConfig) (st : SWState) (now : Int)
    (hw : 0 < c.windowNs) (hws : st.windowStart ≤ now) :
    swWeighted c st now =
      (st.prevCount : ℚ) *
          (1 - max 0 (min 1 (((now - st.windowStart : Int) : ℚ) / (c.windowNs : ℚ))))
        + (st.currCount : ℚ) := by
  have hnum : (0 : ℚ) ≤ ((now - st.windowStart : Int) : ℚ) := by
    exact_mod_cast (by omega : (0 : Int) ≤ now - st.windowStart)
  have hden : (0 : ℚ) ≤ (c.windowNs : ℚ) := by exact_mod_cast hw.le
  unfold swWeighted SWConfig.invWindow
  rw [mul_one_div, clamp01_of_nonneg _ (div_nonneg hnum hden)]

/-- After `advanceWindow` under a non-regressing clock the window start is
still not in the future. -/
theorem advance_ws_le (c : SWConfig) (s : SWState) (now : Int)
    (hws : s.windowStart ≤ now) :
    (advanceWindow c s now).windowStart ≤ now := by
  unfold advanceWindow
  split_ifs with h1 h2
  · exact le_refl now
  · show s.windowStart + c.windowNs ≤ now
    omega
  · exact hws

/-- Claim C8: for every sliding-window `AllowN(key, n)` with `n > 0`
(persistence succeeding), the stored state is first advanced — full reset
after two windows, slide after one, unchanged otherwise — then the verdict is
deny exactly when `prev · (1 − progress) + curr + n > rate` with
`progress = clamp((now − window_start)/window, 0, 1)`; on deny
`retry_after = window − (now − window_start)`, and on allow the current count
increases by exactly `n`. -/
theorem c8_sliding_window_semantics (c : SWConfig) (key : String) (s : SWState)
    (now n : Int) (ttlErr : Option GoErr)
    (hw : 0 < c.windowNs) (hn : 0 < n) (hws : s.windowStart ≤ now) :
    ((2 * c.windowNs ≤ now - s.windowStart → advanceWindow c s now = ⟨0, 0, now⟩)
      ∧ (c.windowNs ≤ now - s.windowStart → now - s.windowStart < 2 * c.windowNs →
          advanceWindow c s now = ⟨s.currCount, 0, s.windowStart + c.windowNs⟩)
      ∧ (now - s.windowStart < c.windowNs → advanceWindow c s now = s))
    ∧ ((swAllowNDetails c key (some s) now n none ttlErr).result.allowed = false
        ↔ (c.rate : ℚ) <
            ((advanceWindow c s now).prevCount : ℚ) *
                (1 - max 0 (min 1
                  (((now - (advanceWindow c s now).windowStart : Int) : ℚ) / (c.windowNs : ℚ))))
              + ((advanceWindow c s now).currCount : ℚ) + (n : ℚ))
    ∧ ((swAllowNDetails c key (some s) now n none ttlErr).result.allowed = false →
        (swAllowNDetails c key (some s) now n none ttlErr).result.retryAfter =
          c.windowNs - (now - (advanceWindow c s now).windowStart))
    ∧ ((swAllowNDetails c key (some s) now n none ttlErr).result.allowed = true →
        (swAllowNDetails c key (some s) now n none ttlErr).state =
          some ⟨(advanceWindow c s now).prevCount, (advanceWindow c s now).currCount + n,
            (advanceWindow c s now).windowStart⟩) := by
  have hn' : ¬ (n ≤ 0) := by omega
  have ha : (advanceWindow c s now).windowStart ≤ now := advance_ws_le c s now hws
  have hwc := swWeighted_eq_clamped c (advanceWindow c s now) now hw ha
  refine ⟨?_, ?_⟩
  · refine ⟨?_, ?_, ?_⟩ <;> unfold advanceWindow <;> intros <;> split_ifs <;>
      first | rfl | omega
  · simp only [swAllowNDetails, swGetState, if_neg hn']
    rw [← hwc]
    by_cases hd : (c.rate : ℚ) < swWeighted c (advanceWindow c s now) now + (n : ℚ)
    · rw [if_pos hd]
      cases ttlErr with
      | none => exact ⟨⟨fun _ => hd, fun _ => rfl⟩, fun _ => rfl, fun h => by simp at h⟩
      | some e => exact ⟨⟨fun _ => hd, fun _ => rfl⟩, fun _ => rfl, fun h => by simp at h⟩
    · rw [if_neg hd]
      exact ⟨⟨fun h => by simp at h, fun h => absurd h hd⟩, fun h => by simp at h,
        fun _ => rfl⟩

/-- Witness for C8: rate 10 per 100ns window, stored state with a full
current window, five nanoseconds in: the 11th request is denied and told to
retry when the window turns. -/
theorem c8_witness :
    (swAllowNDetails ⟨10, 100⟩ "k" (some ⟨0, 10, 0⟩) 5 1 none none).result.allowed = false
    ∧ (swAllowNDetails ⟨10, 100⟩ "k" (some ⟨0, 10, 0⟩) 5 1 none none).result.retryAfter =
        100 - (5 - (advanceWindow ⟨10, 100⟩ ⟨0, 10, 0⟩ 5).windowStart) := by
  have h := c8_sliding_window_semantics ⟨10, 100⟩ "k" ⟨0, 10, 0⟩ 5 1 none
    (by decide) (by decide) (by decide)
  have hd : (swAllowNDetails ⟨10, 100⟩ "k" (some ⟨0, 10, 0⟩) 5 1 none none).result.allowed
      = false := by
    apply (h.2.1).mpr
    norm_num [advanceWindow]
  exact ⟨hd, h.2.2.1 hd⟩

/-- Replacing a present key leaves it bound to the new entry. -/
theorem shardFind_replace {α : Type} (m : ShardMap α) (k : String × String)
    (e : EntryV α) (h : (shardFind k m).isSome = true) :
    shardFind k (shardReplace m k e) = some e := by
  induction m with
  | nil => simp [shardFind] at h
  | cons hd t ih =>
    by_cases hk : hd.1 = k
    · simp only [shardReplace, List.map_cons]
      rw [if_pos hk]
      simp [shardFind]
    · simp only [shardReplace, List.map_cons]
      rw [if_neg hk]
      simp only [shardFind]
      rw [if_neg hk]
      have h' : (shardFind k t).isSome = true := by
        simp only [shardFind] at h
        rwa [if_neg hk] at h
      have := ih h'
      simp only [shardReplace] at this
      exact this

/-- Go map assignment binds the key to the new entry. -/
theorem shardFind_insert {α : Type} (m : ShardMap α) (k : String × String)
    (e : EntryV α) : shardFind k (shardInsert m k e) = some e := by
  unfold shardInsert
  by_cases h : (shardFind k m).isSome
  · rw [if_pos h]
    exact shardFind_replace m k e h
  · rw [if_neg h]
    simp [shardFind]

/-- Replacement does not change the entry count. -/
theorem shardReplace_length {α : Type} (m : ShardMap α) (k : String × String)
    (e : EntryV α) : (shardReplace m k e).length = m.length :=
  List.length_map _ _

/-- Claim C6: a shard with `m` entries at most `max_per_shard =
max(1, max_entries / 256)` stays bounded under every write: updating a
present key succeeds unconditionally (even at capacity) and binds the new
entry, inserting a new key into a full shard returns `StoreFull` and leaves
the shard unchanged, and the read path has no capacity condition at all
(its result is lookup-then-expiry, whatever the shard size). -/
theorem c6_store_capacity (α : Type) (maxEntries maxKeySize : Int) (m : ShardMap α)
    (ns key : String) (v : α) (ttl now : Int)
    (hkey : (ns.utf8ByteSize + key.utf8ByteSize : Int) ≤ maxKeySize)
    (hsz : (m.length : Int) ≤ memMaxShardSize maxEntries) :
    (1 ≤ memMaxShardSize maxEntries
      ∧ (0 < maxEntries → memMaxShardSize maxEntries = max 1 (maxEntries / 256)))
    ∧ ((memSetWithNamespace maxKeySize (memMaxShardSize maxEntries) m ns key v ttl now).2.length
        : Int) ≤ memMaxShardSize maxEntries
    ∧ ((shardFind (ns, key) m).isSome = true →
        (memSetWithNamespace maxKeySize (memMaxShardSize maxEntries) m ns key v ttl now).1 = none
        ∧ shardFind (ns, key)
            (memSetWithNamespace maxKeySize (memMaxShardSize maxEntries) m ns key v ttl now).2 =
          some ⟨v, if ttl > 0 then some (now + ttl) else none⟩)
    ∧ ((shardFind (ns, key) m).isSome = false →
        memMaxShardSize maxEntries ≤ (m.length : Int) →
        (memSetWithNamespace maxKeySize (memMaxShardSize maxEntries) m ns key v ttl now).1 =
            some (.base .storeFull)
        ∧ (memSetWithNamespace maxKeySize (memMaxShardSize maxEntries) m ns key v ttl now).2 = m)
    ∧ (∀ (mm : ShardMap α) (now' : Int),
        memGetWithNamespace maxKeySize mm ns key now' =
          (shardFind (ns, key) mm).bind
            (fun e => if entryIsExpiredAt e now' then none else some e.value)) := by
  have hgate : ¬ ((ns.utf8ByteSize + key.utf8ByteSize : Int) > maxKeySize) := by omega
  have hM1 : 1 ≤ memMaxShardSize maxEntries := by
    simp only [memMaxShardSize]
    split_ifs <;> omega
  refine ⟨⟨hM1, ?_⟩, ?_, ?_, ?_, ?_⟩
  · intro hpos
    simp only [memMaxShardSize]
    split_ifs <;> omega
  · simp only [memSetWithNamespace, if_neg hgate]
    by_cases hroom : (m.length : Int) < memMaxShardSize maxEntries
    · rw [if_pos hroom]
      unfold shardInsert
      by_cases hp : (shardFind ((ns, key) : String × String) m).isSome
      · rw [if_pos hp]
        rw [shardReplace_length]
        omega
      · rw [if_neg hp]
        simp only [List.length_cons]
        push_cast
        omega
    · rw [if_neg hroom]
      by_cases hp : (shardFind ((ns, key) : String × String) m).isSome
      · rw [if_pos hp]
        unfold shardInsert
        rw [if_pos hp, shardReplace_length]
        omega
      · rw [if_neg hp]
        exact hsz
  · intro hp
    simp only [memSetWithNamespace, if_neg hgate]
    by_cases hroom : (m.length : Int) < memMaxShardSize maxEntries
    · rw [if_pos hroom]
      exact ⟨rfl, shardFind_insert m _ _⟩
    · rw [if_neg hroom, if_pos hp]
      exact ⟨rfl, shardFind_insert m _ _⟩
  · intro hp hfull
    simp only [memSetWithNamespace, if_neg hgate]
    rw [if_neg (by omega), if_neg (by simp [hp])]
    exact ⟨rfl, rfl⟩
  · intro mm now'
    simp only [memGetWithNamespace, if_neg hgate]
    cases shardFind ((ns, key) : String × String) mm <;> rfl

/-- Witness for C6: a shard at its capacity of one entry rejects a second
key with `StoreFull` but still updates the key it holds. -/
theorem c6_witness :
    (1 ≤ memMaxShardSize 100
      ∧ (0 < (100 : Int) → memMaxShardSize 100 = max 1 (100 / 256)))
    ∧ ((memSetWithNamespace 4096 (memMaxShardSize 100)
          ([(("tb", "a"), ⟨(7 : Int), none⟩)] : ShardMap Int) "tb" "b" 9 0 0).2.length
        : Int) ≤ memMaxShardSize 100 := by
  have h := c6_store_capacity Int 100 4096 [(("tb", "a"), ⟨7, none⟩)] "tb" "b" 9 0 0
    (by decide) (by decide)
  exact ⟨h.1, h.2.1⟩

/-- Claim C3: when a request reaches the key gate (not excluded, method
included / rule matched) and the derived key exceeds `max_key_size` bytes,
both the middleware and the router answer 431 and never invoke the limiter:
the flag records no limiter call, and the outcome is identical under any
two limiter (hence store) behaviours. -/
theorem c3_key_length_gate (excl incl : List String) (mks : Int)
    (cleanPath method key keyBase : String)
    (lim lim2 : Unit → Bool × Option GoErr)
    (eps : List EndpointCfg) (i : Nat) (ep : EndpointCfg)
    (lims lims2 : Nat → Unit → Bool × Option GoErr)
    (hexcl : (!excl.isEmpty && excl.any (fun p => matchPath cleanPath p)) = false)
    (hincl : (!incl.isEmpty && !incl.any (fun m => eqFold method m)) = false)
    (hkey : (key.utf8ByteSize : Int) > (if mks ≤ 0 then 4096 else mks))
    (hfind : findFirstMatch cleanPath method eps 0 = some (i, ep))
    (hkeyR : ((keyBase ++ ":" ++ ep.path).utf8ByteSize : Int) >
        (if mks ≤ 0 then 4096 else mks)) :
    middlewareServe excl incl mks cleanPath method key lim = ⟨.errorResponse 431, false⟩
    ∧ middlewareServe excl incl mks cleanPath method key lim =
        middlewareServe excl incl mks cleanPath method key lim2
    ∧ routerServe eps mks cleanPath method keyBase lims = ⟨.errorResponse 431, false⟩
    ∧ routerServe eps mks cleanPath method keyBase lims =
        routerServe eps mks cleanPath method keyBase lims2 := by
  have hmw : ∀ (l : Unit → Bool × Option GoErr),
      middlewareServe excl incl mks cleanPath method key l = ⟨.errorResponse 431, false⟩ := by
    intro l
    simp only [middlewareServe]
    rw [if_neg (by simp [hexcl]), if_neg (by simp [hincl]), if_pos hkey]
  have hrt : ∀ (ls : Nat → Unit → Bool × Option GoErr),
      routerServe eps mks cleanPath method keyBase ls = ⟨.errorResponse 431, false⟩ := by
    intro ls
    simp only [routerServe, hfind]
    rw [if_pos hkeyR]
  exact ⟨hmw lim, (hmw lim).trans (hmw lim2).symm, hrt lims,
    (hrt lims).trans (hrt lims2).symm⟩

/-- Witness for C3: `max_key_size = 5` and an 8-byte key; both entry points
answer 431 with the limiter flag false. -/
theorem c3_witness :
    middlewareServe [] [] 5 "/a" "GET" "aaaaaaaa" (fun _ => (true, none)) =
        ⟨.errorResponse 431, false⟩
    ∧ routerServe [⟨"/a", []⟩] 5 "/a" "GET" "aaaaaaaa" (fun _ _ => (true, none)) =
        ⟨.errorResponse 431, false⟩ := by
  have h := c3_key_length_gate [] [] 5 "/a" "GET" "aaaaaaaa" "aaaaaaaa"
    (fun _ => (true, none)) (fun _ => (false, some (.base .generic)))
    [⟨"/a", []⟩] 0 ⟨"/a", []⟩ (fun _ _ => (true, none))
    (fun _ _ => (false, some (.base .generic)))
    (by decide) (by decide) (by decide) (by decide) (by decide)
  exact ⟨h.1, h.2.2.1⟩

/-- The `findSome?` over an append tries the left part first. -/
theorem findSome?_append_or {α β : Type} (f : α → Option β) (l1 l2 : List α) :
    List.findSome? f (l1 ++ l2) =
      match List.findSome? f l1 with
      | some b => some b
      | none => List.findSome? f l2 := by
  induction l1 with
  | nil => rfl
  | cons a t ih =>
    cases hfa : f a <;> simp [List.findSome?, hfa, ih]

/-- A nested `findSome?` over per-element lists is a `findSome?` over the
flattened list. -/
theorem findSome?_flatten_eq {α β γ : Type} (g : γ → Option β) (f : α → List γ)
    (l : List α) :
    List.findSome? (fun a => List.findSome? g (f a)) l =
      List.findSome? g ((l.map f).flatten) := by
  induction l with
  | nil => rfl
  | cons a t ih =>
    simp only [List.map_cons, List.flatten_cons, findSome?_append_or]
    cases hfa : List.findSome? g (f a) <;> simp [List.findSome?, hfa, ih]

/-- Reversing a flattened map is flattening the reversed map of reverses. -/
theorem flatten_map_reverse {α γ : Type} (f : α → List γ) (l : List α) :
    ((l.map f).flatten).reverse = (l.reverse.map (fun x => (f x).reverse)).flatten := by
  induction l with
  | nil => rfl
  | cons a t ih =>
    simp [List.reverse_append, ih]

/-- Counterexample to claim C4 as stated: chain segments are NOT
port-stripped before the trust test.  With trusted proxy `10.0.0.1`, peer
`10.0.0.1:123` and chain `1.1.1.1, 9.9.9.9:80`, the claim's reading
port-strips the right-most segment and returns the untrusted `9.9.9.9`,
but the code skips `9.9.9.9:80` as unparsable and returns `1.1.1.1`. -/
theorem c4_counterexample :
    trustedIPExtract parseIPv4 demoTrusted ipv4Canon "10.0.0.1:123"
        ["1.1.1.1, 9.9.9.9:80"] = "1.1.1.1"
    ∧ claimTrustedExtract parseIPv4 demoTrusted ipv4Canon "10.0.0.1:123"
        ["1.1.1.1, 9.9.9.9:80"] = "9.9.9.9"
    ∧ trustedIPExtract parseIPv4 demoTrusted ipv4Canon "10.0.0.1:123"
          ["1.1.1.1, 9.9.9.9:80"] ≠
        claimTrustedExtract parseIPv4 demoTrusted ipv4Canon "10.0.0.1:123"
          ["1.1.1.1, 9.9.9.9:80"] := by
  decide

/-- Claim C4 (amended): for a parsable, trusted peer, the extractor walks
the concatenation of all X-Forwarded-For headers right to left (across
header occurrences) and returns the canonical form of the first segment
that, after trimming ONLY (no port-stripping) parses to an untrusted
address; segments that fail to parse are skipped, never treated as trusted;
when every parsable segment is trusted it falls back to the left-most
segment of the first header (trimmed, port-stripped, canonicalized when it
parses). -/
theorem c4_amended_extractor (α : Type) (parse : String → Option α)
    (trusted : α → Bool) (canon : α → String) (remoteAddr : String)
    (headers : List String) (p : α)
    (hp : parse (getRemoteIP parse canon remoteAddr) = some p)
    (ht : trusted p = true) :
    trustedIPExtract parse trusted canon remoteAddr headers =
      match List.findSome? (scanSegment parse trusted)
          (((headers.map (fun h => splitChar ',' h)).flatten).reverse) with
      | some ip => canon ip
      | none => allTrustedFallback parse canon (getRemoteIP parse canon remoteAddr)
          (headers.headD "") := by
  cases headers with
  | nil =>
    simp only [trustedIPExtract, hp, ht, List.isEmpty_nil, if_true, List.map_nil,
      List.flatten_nil, List.reverse_nil, List.findSome?, List.headD]
    simp [allTrustedFallback, strTrim]
  | cons h t =>
    simp only [trustedIPExtract, hp, ht, Bool.not_true, Bool.false_eq_true, if_false,
      List.isEmpty_cons, List.headD]
    rw [findSome?_flatten_eq (scanSegment parse trusted)
      (fun xff => (splitChar ',' xff).reverse) (h :: t).reverse]
    rw [flatten_map_reverse (fun h => splitChar ',' h) (h :: t)]

/-- Witness for the amended C4: the concrete IPv4 instance of the
counterexample input, where the extractor returns `1.1.1.1`. -/
theorem c4_amended_witness :
    trustedIPExtract parseIPv4 demoTrusted ipv4Canon "10.0.0.1:123"
        ["1.1.1.1, 9.9.9.9:80"] = "1.1.1.1" := by
  have h := c4_amended_extractor _ parseIPv4 demoTrusted ipv4Canon "10.0.0.1:123"
    ["1.1.1.1, 9.9.9.9:80"] (10, 0, 0, 1) (by decide) (by decide)
  rw [h]
  decide

end Ratelimiter
